import Mathlib

/-!
Verification of the theme registry of `instructure-ui`
(`packages/ui-themeable/src/registry.js`).

The registry stores named themes (nested variable maps plus an `immutable`
flag), per-theme buckets of component style functions, a default theme key,
and default overrides.  We embed the JavaScript module shallowly:

* plain JS objects become association lists in insertion order, accessed
  through `getProp` (property read), `setProp` (property assignment) and
  `spreadProps` (object spread `{...t, ...s}`);
* JS `undefined`/`null` arguments become `Option`;
* component style functions (which may throw) become `Obj → Except Unit Obj`;
* the module-level mutable registry becomes explicit state passing.

The helpers `mergeDeep` and `uid` live in the sibling package
`@instructure/ui-utils`, whose sources are not part of this tree; they are
modelled from the specification (marked `Modelled from the spec:` below).
Everything else is translated directly from `registry.js`.
-/

namespace Themeable

/-- Property read `o[key]` on a JS object modelled as an association list:
the first binding of `key`, `none` when the property is absent. -/
def getProp {κ ν : Type} [DecidableEq κ] : List (κ × ν) → κ → Option ν
  | [], _ => none
  | (k, v) :: rest, key => if k = key then some v else getProp rest key

/-- Property assignment `o[key] = v`: replaces the value in place when the
key exists (keeping its position), otherwise appends the new key at the end. -/
def setProp {κ ν : Type} [DecidableEq κ] : List (κ × ν) → κ → ν → List (κ × ν)
  | [], key, v => [(key, v)]
  | (k, w) :: rest, key, v =>
      if k = key then (k, v) :: rest else (k, w) :: setProp rest key v

/-- JS object spread `{...t, ...s}`: `t`'s keys in order with `s`'s values
winning on collision, followed by `s`'s keys not present in `t`. -/
def spreadProps {κ ν : Type} [DecidableEq κ] (t s : List (κ × ν)) : List (κ × ν) :=
  (t.map fun p => match getProp s p.1 with
    | some v => (p.1, v)
    | none => p)
    ++ s.filter fun p => (getProp t p.1).isNone

/-- A JavaScript value as used for theme variables: a string, a number or a
nested plain object (represented as an association list in insertion order). -/
inductive JVal where
  | vStr : String → JVal
  | vNat : Nat → JVal
  | vObj : List (String × JVal) → JVal
  deriving Repr

/-- A plain JS object: own enumerable string keys in insertion order. -/
abbrev Obj := List (String × JVal)

mutual

/-- Modelled from the spec: value-level step of `mergeDeep` from
`@instructure/ui-utils` (source not under this tree).  Override values take
precedence at every nesting level: plain-object values merge recursively,
non-object values replace. -/
def mergeDeepVal : JVal → JVal → JVal
  | JVal.vObj t, JVal.vObj s => JVal.vObj (mergeDeepObj t s)
  | _, s => s

/-- Modelled from the spec: `mergeDeep` from `@instructure/ui-utils` (source
not under this tree) folded over the source object's keys.  Each source key is
assigned into the target; when both sides hold plain objects the values merge
recursively, otherwise the source value replaces the target value. -/
def mergeDeepObj : Obj → Obj → Obj
  | t, [] => t
  | t, (k, sv) :: rest =>
      let newV := match getProp t k with
        | some tv => mergeDeepVal tv sv
        | none => sv
      mergeDeepObj (setProp t k newV) rest

end

/-- The reserved default key constant `DEFAULT_THEME_KEY`. -/
def DEFAULT_THEME_KEY : String := "@@themeableDefaultTheme"

/-- A component key: the JS code uses a `Symbol`, an opaque identifier
distinct from every string property name.  We model it as a wrapped `Nat`. -/
structure CKey where
  id : Nat
  deriving Repr, DecidableEq

/-- A component style function as stored in a registry bucket: invoked on the
resolved variables, it either returns a style object or throws. -/
abbrev StyleFn := Obj → Except Unit Obj

/-- A registered theme: a plain JS object with optional `key`, a variables
map (the source field `variables`, a reserved word in Lean, so spelled `vars`
here) and an `immutable` flag.  Absent fields are modelled by `none`, `[]` and
`false` (matching how the code reads them through falsiness and spreads). -/
structure Theme where
  key : Option String := none
  vars : Obj := []
  immutable : Bool := false

/-- The argument to `registerComponentTheme`: a JS function value.
`isFunction` is `false` when a non-callable was passed; `run` is the behaviour
of invoking it; `props` are its own enumerable string properties in insertion
order, `some f` when the property value is itself a function. -/
structure ComponentThemeFunction where
  isFunction : Bool := true
  run : StyleFn := fun _ => Except.ok []
  props : List (String × Option StyleFn) := []

/-- A components bucket: component keys (symbols) to style functions, in
insertion order. -/
abbrev Bucket := List (CKey × StyleFn)

/-- The global theme registry record built by `makeRegistry`. -/
structure Registry where
  defaultThemeKey : Option String := none
  components : List (String × Bucket) := [(DEFAULT_THEME_KEY, [])]
  themes : List (String × Theme) := []
  registered : List String := []
  overrides : Option Obj := none

/-- `makeRegistry()`: the freshly constructed empty registry. -/
def makeRegistry : Registry := {}

/-- A JS string-or-fallback `a || b`: `undefined` and the empty string are
falsy, any other string is returned as is. -/
def jsOr (a : Option String) (b : String) : String :=
  match a with
  | some s => if s = "" then b else s
  | none => b

/-- A JS truthiness filter on an optional string: `none` for `undefined` or
`""`, `some s` otherwise. -/
def jsStr (a : Option String) : Option String :=
  match a with
  | some s => if s = "" then none else some s
  | none => none

/-- JS `overrides && Object.keys(overrides).length > 0`: true when the
argument is an object with at least one key. -/
def objNonEmpty (o : Option Obj) : Bool :=
  match o with
  | some l => decide (0 < l.length)
  | none => false

/-- `getDefaultThemeKey()`: `defaultThemeKey || registered[0] || DEFAULT_THEME_KEY`. -/
def getDefaultThemeKey (r : Registry) : String :=
  jsOr r.defaultThemeKey (jsOr r.registered.head? DEFAULT_THEME_KEY)

/-- `clearRegistry()`: replace the registry with `makeRegistry()`.  (The
`window` mirroring used when a DOM is present is not modelled; with
`canUseDOM` false the module keeps the registry in local module state, which
is the state we pass explicitly.) -/
def clearRegistry (_ : Registry) : Registry := makeRegistry

/-- `setDefaultTheme(themeKey, overrides, immutable)`: shallow-copies the
stored theme (an empty object when the key is unknown) with the `immutable`
flag overlaid, stores it back, records `overrides` and the default key on the
registry, and returns the updated theme. -/
def setDefaultTheme (r : Registry) (themeKey : String) (overrides : Option Obj)
    (immutable : Bool) : Registry × Theme :=
  let theme := (getProp r.themes themeKey).getD {}
  let theme := { theme with immutable := immutable }
  ({ r with
      themes := setProp r.themes themeKey theme
      defaultThemeKey := some themeKey
      overrides := overrides },
    theme)

/-- Modelled from the spec: `uid` from `@instructure/ui-utils` (source not
under this tree) generates a fresh unique identifier on each call.  We model
the generator as a counter and render the n-th identifier as a string whose
length determines `n`, so distinct calls give distinct keys. -/
def uidString (n : Nat) : String :=
  String.mk ('u' :: List.replicate n 'u')

/-- The module-level mutable state the registry code lives in: the registry
singleton plus the state of the `uid` generator. -/
structure GlobalState where
  registry : Registry := makeRegistry
  uidCounter : Nat := 0

/-- `registerTheme(theme)`: `key = theme.key || uid()`; stores the theme
(unchanged) under that key and pushes the key onto `registered`.  `uid()` is
only invoked (advancing the generator) when `theme.key` is falsy. -/
def registerTheme (s : GlobalState) (theme : Theme) : GlobalState :=
  match jsStr theme.key with
  | some key =>
      { s with registry := { s.registry with
          themes := setProp s.registry.themes key theme
          registered := s.registry.registered ++ [key] } }
  | none =>
      let key := uidString s.uidCounter
      { registry := { s.registry with
          themes := setProp s.registry.themes key theme
          registered := s.registry.registered ++ [key] }
        uidCounter := s.uidCounter + 1 }

/-- The key `registerTheme` resolves for a theme: `theme.key || uid()`. -/
def regKey (s : GlobalState) (theme : Theme) : String :=
  jsOr theme.key (uidString s.uidCounter)

/-- `getRegisteredTheme(themeKey, defaultTheme)`: the stored theme, or the
supplied fallback when the key is unknown (a diagnostic is logged in that
case unless the fallback was passed). -/
def getRegisteredTheme (r : Registry) (themeKey : String) (defaultTheme : Theme) : Theme :=
  (getProp r.themes themeKey).getD defaultTheme

/-- `overrideThemeVariables(themeKey, overrides)`: when the overrides are a
non-empty object and the theme is immutable, a diagnostic is logged and the
theme's own variables are returned unchanged; otherwise the overrides are
deep-merged onto the theme's variables.  The function only reads the
registry: the stored theme is never modified. -/
def overrideThemeVariables (r : Registry) (themeKey : String) (overrides : Option Obj) : Obj :=
  let theme := getRegisteredTheme r themeKey {}
  if objNonEmpty overrides && theme.immutable then
    theme.vars
  else
    mergeDeepObj theme.vars (overrides.getD [])

/-- `mergeWithDefaultThemeVariables(themeKey, overrides = {})`: with a truthy
`themeKey`, first merge the overrides into that theme (immutability-guarded),
then merge the result into the default theme (guarded by the default theme's
own immutability); otherwise deep-merge the registry-level default overrides
with the caller overrides and merge the combination into the default theme. -/
def mergeWithDefaultThemeVariables (r : Registry) (themeKey : Option String)
    (overrides : Option Obj) : Obj :=
  let ov := overrides.getD []
  let defaultOverrides := r.overrides.getD []
  let defaultThemeKey := getDefaultThemeKey r
  match jsStr themeKey with
  | some tk =>
      overrideThemeVariables r defaultThemeKey
        (some (overrideThemeVariables r tk (some ov)))
  | none =>
      overrideThemeVariables r defaultThemeKey
        (some (mergeDeepObj defaultOverrides ov))

/-- `makeComponentTheme(componentThemeFunction, themeKey)`: a wrapper that
invokes the base function when callable (else starts from an empty object),
then, when the function carries a sub-function named after the theme key,
invokes it too and spreads its result over the base result. -/
def makeComponentTheme (f : ComponentThemeFunction) (themeKey : String) : StyleFn :=
  fun vars =>
    match (if f.isFunction then f.run vars else Except.ok []) with
    | Except.ok base =>
        match getProp f.props themeKey with
        | some (some sub) =>
            match sub vars with
            | Except.ok s => Except.ok (spreadProps base s)
            | Except.error e => Except.error e
        | _ => Except.ok base
    | Except.error e => Except.error e

/-- `registerComponentTheme(componentKey, componentThemeFunction)`: a no-op
for non-callable arguments; otherwise stores the raw function in the default
bucket, then for every own property name (treated as a theme key) ensures a
bucket exists and stores the `makeComponentTheme` wrapper there. -/
def registerComponentTheme (r : Registry) (componentKey : CKey)
    (f : ComponentThemeFunction) : Registry :=
  if !f.isFunction then r
  else
    let comps := setProp r.components DEFAULT_THEME_KEY
      (setProp ((getProp r.components DEFAULT_THEME_KEY).getD [])
        componentKey f.run)
    let comps := f.props.foldl
      (fun comps p =>
        setProp comps p.1
          (setProp ((getProp comps p.1).getD []) componentKey
            (makeComponentTheme f p.1)))
      comps
    { r with components := comps }

/-- `getRegisteredComponents(themeKey)`: the default bucket spread with the
bucket of `themeKey || getDefaultThemeKey()` (theme-specific entries win). -/
def getRegisteredComponents (r : Registry) (themeKey : Option String) : Bucket :=
  let t := jsOr themeKey (getDefaultThemeKey r)
  spreadProps ((getProp r.components DEFAULT_THEME_KEY).getD [])
    ((getProp r.components t).getD [])

/-- The `forEach` body of `generateTheme`: assigns
`components[componentKey](variables)` under each symbol key of the combined
bucket, in order.  A style function that throws propagates (there is no
try/catch on this path), aborting the generation. -/
def generateThemeLoop (bucket : Bucket) (vars : Obj) :
    Bucket → Except Unit (List (CKey × Obj))
  | [] => Except.ok []
  | (k, _) :: rest =>
      match getProp bucket k with
      | some f =>
          match f vars with
          | Except.ok v =>
              match generateThemeLoop bucket vars rest with
              | Except.ok out => Except.ok ((k, v) :: out)
              | Except.error e => Except.error e
          | Except.error e => Except.error e
      | none => Except.error ()

/-- `generateTheme(themeKey, overrides)`: resolves the combined components
bucket and variables (full overrides applied at the variables level), then
invokes every component's style function with the variables, keying each
result under the component's key. -/
def generateTheme (r : Registry) (themeKey : Option String) (overrides : Option Obj) :
    Except Unit (List (CKey × Obj)) :=
  let components := getRegisteredComponents r themeKey
  let vars := mergeWithDefaultThemeVariables r themeKey overrides
  generateThemeLoop components vars components

/-- `getTheme(themeKey)`: the raw variables of the named theme, an empty
mapping when it is not registered. -/
def getTheme (r : Registry) (themeKey : String) : Obj :=
  (getRegisteredTheme r themeKey {}).vars

/-- `generateComponentTheme(componentKey, themeKey, overrides)`: resolves
variables from `themeKey` alone (caller overrides are not passed to the
variable resolution), looks the component's style function up in the combined
bucket for the effective theme key, invokes it catching any thrown error
(falling back to an empty object), and finally either drops the overrides
(immutable effective theme, with a diagnostic) or spreads them over the
function's result. -/
def generateComponentTheme (r : Registry) (componentKey : CKey)
    (themeKey : Option String) (overrides : Option Obj) : Obj :=
  let vars := mergeWithDefaultThemeVariables r themeKey none
  let t := jsOr themeKey (getDefaultThemeKey r)
  let components := getRegisteredComponents r (some t)
  let componentTheme : Obj :=
    match getProp components componentKey with
    | some f =>
        match f vars with
        | Except.ok o => o
        | Except.error _ => []
    | none => []
  let theme := getRegisteredTheme r t {}
  if objNonEmpty overrides && theme.immutable then
    componentTheme
  else
    spreadProps componentTheme (overrides.getD [])

/-- `getRegisteredThemes()`: the full themes mapping. -/
def getRegisteredThemes (r : Registry) : List (String × Theme) :=
  r.themes

/-- One mutating operation against the module state, for stating invariants
over arbitrary operation sequences. -/
inductive Op where
  | regTheme : Theme → Op
  | setDefault : String → Option Obj → Bool → Op
  | regComponent : CKey → ComponentThemeFunction → Op
  | clear : Op

/-- Run one operation against the module state. -/
def applyOp (s : GlobalState) : Op → GlobalState
  | Op.regTheme t => registerTheme s t
  | Op.setDefault k ov imm => { s with registry := (setDefaultTheme s.registry k ov imm).1 }
  | Op.regComponent k f => { s with registry := registerComponentTheme s.registry k f }
  | Op.clear => { s with registry := clearRegistry s.registry }

/-- Run a sequence of operations from a given state. -/
def applyOps (s : GlobalState) (ops : List Op) : GlobalState :=
  ops.foldl applyOp s

/-- Keys generated by `uid` during a run of operations (one per
`registerTheme` whose theme lacks a truthy key), in execution order. -/
def genKeys : GlobalState → List Op → List String
  | _, [] => []
  | s, Op.regTheme t :: rest =>
      match jsStr t.key with
      | none => uidString s.uidCounter :: genKeys (applyOp s (Op.regTheme t)) rest
      | some _ => genKeys (applyOp s (Op.regTheme t)) rest
  | s, op :: rest => genKeys (applyOp s op) rest

/-- The guard under which the no-duplicates invariant of `registered` holds:
every `registerTheme` in the sequence resolves to a key not already present
in `registered` at that point. -/
def noRereg : GlobalState → List Op → Bool
  | _, [] => true
  | s, Op.regTheme t :: rest =>
      decide (regKey s t ∉ s.registry.registered) && noRereg (applyOp s (Op.regTheme t)) rest
  | s, op :: rest => noRereg (applyOp s op) rest

/-- A mutable theme with a blue color variable, for concrete instances. -/
def baseTheme : Theme :=
  { key := some "base", vars := [("color", JVal.vStr "blue")] }

/-- An immutable theme with a red color variable, for concrete instances. -/
def strictTheme : Theme :=
  { key := some "strict", vars := [("color", JVal.vStr "red")], immutable := true }

/-- A component style function returning its input variables unchanged. -/
def identityFn : ComponentThemeFunction := { run := fun v => Except.ok v }

/-- The module state after registering `base` (mutable) and `strict`
(immutable), making `base` the default theme, and registering one component
whose style function returns the resolved variables. -/
def scenarioState : GlobalState :=
  applyOps {} [Op.regTheme baseTheme, Op.regTheme strictTheme,
    Op.setDefault "base" (some []) false, Op.regComponent ⟨0⟩ identityFn]

/-- A style function that always throws. -/
def throwingFn : StyleFn := fun _ => Except.error ()

/-- A registry whose default bucket holds a single throwing component. -/
def throwRegistry : Registry :=
  { makeRegistry with components := [(DEFAULT_THEME_KEY, [(⟨0⟩, throwingFn)])] }

/-- A constant style function producing a blue style object. -/
def blueFn : StyleFn := fun _ => Except.ok [("color", JVal.vStr "blue")]

/-- A registry whose default bucket holds one constant component. -/
def blueRegistry : Registry :=
  { makeRegistry with components := [(DEFAULT_THEME_KEY, [(⟨1⟩, blueFn)])] }

/-- A registry holding one immutable theme and one constant component. -/
def immCompRegistry : Registry :=
  { makeRegistry with
      themes := [("strict", strictTheme)]
      components := [(DEFAULT_THEME_KEY, [(⟨1⟩, blueFn)])] }

/-- The per-theme specialization carried by `brandFn` under the name
`brand`. -/
def brandSub : StyleFn := fun _ => Except.ok [("y", JVal.vNat 9), ("z", JVal.vNat 3)]

/-- A component theme function carrying a sub-function named `brand`. -/
def brandFn : ComponentThemeFunction :=
  { run := fun _ => Except.ok [("x", JVal.vNat 1), ("y", JVal.vNat 2)]
    props := [("brand", some brandSub)] }

section Lemmas

variable {κ ν : Type} [DecidableEq κ]

theorem getProp_setProp_self (l : List (κ × ν)) (k : κ) (v : ν) :
    getProp (setProp l k v) k = some v := by
  induction l with
  | nil => simp [setProp, getProp]
  | cons p rest ih =>
    by_cases h : p.1 = k <;>
      simp [setProp, getProp, h, ih]

theorem getProp_setProp_ne (l : List (κ × ν)) (k j : κ) (v : ν) (h : k ≠ j) :
    getProp (setProp l k v) j = getProp l j := by
  induction l with
  | nil => simp [setProp, getProp, h]
  | cons p rest ih =>
    by_cases hp : p.1 = k <;>
      simp [setProp, getProp, hp, h, ih]

theorem getProp_append (a b : List (κ × ν)) (k : κ) :
    getProp (a ++ b) k =
      match getProp a k with
      | some v => some v
      | none => getProp b k := by
  induction a with
  | nil => simp [getProp]
  | cons p rest ih =>
    by_cases h : p.1 = k <;> simp [getProp, h, ih]

theorem getProp_map_override (t s : List (κ × ν)) (k : κ) :
    getProp (t.map fun p => match getProp s p.1 with
      | some v => (p.1, v)
      | none => p) k =
      (getProp t k).map fun v =>
        match getProp s k with
        | some w => w
        | none => v := by
  induction t with
  | nil => simp [getProp]
  | cons p rest ih =>
    cases hs : getProp s p.1 <;>
      by_cases h : p.1 = k <;>
        simp_all [getProp]

theorem getProp_filter_fresh (t s : List (κ × ν)) (k : κ) :
    getProp (s.filter fun p => (getProp t p.1).isNone) k =
      if (getProp t k).isNone then getProp s k else none := by
  induction s with
  | nil => simp [getProp]
  | cons p rest ih =>
    by_cases hk : p.1 = k
    · subst hk
      cases ht : getProp t p.1 <;>
        simp [List.filter, getProp, ht, ih]
    · cases ht : getProp t p.1 <;>
        simp [List.filter, getProp, ht, hk, ih]

theorem getProp_spreadProps (t s : List (κ × ν)) (k : κ) :
    getProp (spreadProps t s) k =
      match getProp s k with
      | some v => some v
      | none => getProp t k := by
  rw [spreadProps, getProp_append, getProp_map_override, getProp_filter_fresh]
  cases ht : getProp t k <;> cases hs : getProp s k <;> simp

theorem spreadProps_nil_left (s : List (κ × ν)) : spreadProps [] s = s := by
  simp [spreadProps, getProp]

theorem spreadProps_nil_right (t : List (κ × ν)) : spreadProps t [] = t := by
  simp [spreadProps, getProp]

theorem getProp_eq_some_split (l : List (κ × ν)) (k : κ) (v : ν)
    (h : getProp l k = some v) :
    ∃ l1 l2, l = l1 ++ (k, v) :: l2 ∧ k ∉ l1.map Prod.fst := by
  induction l with
  | nil => simp [getProp] at h
  | cons p rest ih =>
    by_cases hp : p.1 = k
    · simp [getProp, hp] at h
      refine ⟨[], rest, ?_, by simp⟩
      simp [← hp, ← h]
    · simp [getProp, hp] at h
      obtain ⟨l1, l2, rfl, hl1⟩ := ih h
      refine ⟨p :: l1, l2, rfl, ?_⟩
      simp [hl1]
      exact fun hk => hp hk.symm

theorem uidString_injective (m n : Nat) (h : uidString m = uidString n) : m = n := by
  have hlen := congrArg String.length h
  simpa [uidString, String.length] using hlen

theorem jsOr_eq_getD (a : Option String) (b : String) : jsOr a b = (jsStr a).getD b := by
  cases a with
  | none => rfl
  | some s => by_cases h : s = "" <;> simp [jsOr, jsStr, h]

theorem uidCounter_le_applyOp (s : GlobalState) (op : Op) :
    s.uidCounter ≤ (applyOp s op).uidCounter := by
  cases op with
  | regTheme t =>
    cases h : jsStr t.key with
    | none => simp [applyOp, registerTheme, h]
    | some k => simp [applyOp, registerTheme, h]
  | setDefault k ov imm => exact le_refl _
  | regComponent k f => exact le_refl _
  | clear => exact le_refl _

theorem genKeys_mem_counter (ops : List Op) :
    ∀ (s : GlobalState) (k : String), k ∈ genKeys s ops →
      ∃ m, s.uidCounter ≤ m ∧ k = uidString m := by
  induction ops with
  | nil => intro s k h; simp [genKeys] at h
  | cons op rest ih =>
    intro s k h
    have step : ∀ k, k ∈ genKeys (applyOp s op) rest →
        ∃ m, s.uidCounter ≤ m ∧ k = uidString m := by
      intro k hk
      obtain ⟨m, hm, he⟩ := ih _ k hk
      exact ⟨m, le_trans (uidCounter_le_applyOp s op) hm, he⟩
    cases op with
    | regTheme t =>
      cases hk : jsStr t.key with
      | none =>
        simp only [genKeys, hk, List.mem_cons] at h
        rcases h with rfl | h
        · exact ⟨s.uidCounter, le_refl _, rfl⟩
        · exact step _ h
      | some j =>
        simp only [genKeys, hk] at h
        exact step _ h
    | setDefault j ov imm => simp only [genKeys] at h; exact step _ h
    | regComponent j f => simp only [genKeys] at h; exact step _ h
    | clear => simp only [genKeys] at h; exact step _ h

theorem genKeys_nodup_from (ops : List Op) :
    ∀ s : GlobalState, (genKeys s ops).Nodup := by
  induction ops with
  | nil => intro s; simp [genKeys]
  | cons op rest ih =>
    intro s
    cases op with
    | regTheme t =>
      cases hk : jsStr t.key with
      | none =>
        simp only [genKeys, hk, List.nodup_cons]
        refine ⟨?_, ih _⟩
        intro hmem
        obtain ⟨m, hm, he⟩ := genKeys_mem_counter rest _ _ hmem
        have hc : (applyOp s (Op.regTheme t)).uidCounter = s.uidCounter + 1 := by
          simp [applyOp, registerTheme, hk]
        rw [hc] at hm
        have := uidString_injective _ _ he
        omega
      | some j => simp only [genKeys, hk]; exact ih _
    | setDefault j ov imm => simp only [genKeys]; exact ih _
    | regComponent j f => simp only [genKeys]; exact ih _
    | clear => simp only [genKeys]; exact ih _

theorem registerComponentTheme_registered (r : Registry) (K : CKey)
    (f : ComponentThemeFunction) :
    (registerComponentTheme r K f).registered = r.registered := by
  by_cases h : f.isFunction <;> simp [registerComponentTheme, h]

theorem registerTheme_registered (s : GlobalState) (t : Theme) :
    (registerTheme s t).registry.registered = s.registry.registered ++ [regKey s t] := by
  rw [regKey, jsOr_eq_getD]
  cases h : jsStr t.key with
  | none => simp [registerTheme, h]
  | some k => simp [registerTheme, h]

theorem noRereg_nodup (ops : List Op) :
    ∀ s : GlobalState, s.registry.registered.Nodup → noRereg s ops = true →
      ((applyOps s ops).registry.registered).Nodup := by
  induction ops with
  | nil => intro s h _; simpa [applyOps] using h
  | cons op rest ih =>
    intro s h hg
    have hfold : applyOps s (op :: rest) = applyOps (applyOp s op) rest := rfl
    rw [hfold]
    cases op with
    | regTheme t =>
      simp only [noRereg, Bool.and_eq_true, decide_eq_true_eq] at hg
      refine ih _ ?_ hg.2
      have : (applyOp s (Op.regTheme t)).registry.registered
          = s.registry.registered ++ [regKey s t] := registerTheme_registered s t
      rw [this]
      simp [List.nodup_append, h, hg.1]
    | setDefault j ov imm =>
      simp only [noRereg] at hg
      exact ih _ h hg
    | regComponent j f =>
      simp only [noRereg] at hg
      refine ih _ ?_ hg
      show (registerComponentTheme s.registry j f).registered.Nodup
      rw [registerComponentTheme_registered]
      exact h
    | clear =>
      simp only [noRereg] at hg
      exact ih _ (by simp [applyOp, clearRegistry, makeRegistry]) hg

theorem generateThemeLoop_ok (bucket : Bucket) (vars : Obj) :
    ∀ (l : Bucket) (out : List (CKey × Obj)),
      generateThemeLoop bucket vars l = Except.ok out →
      out.map Prod.fst = l.map Prod.fst ∧
      ∀ p ∈ out, ∃ f, getProp bucket p.1 = some f ∧ f vars = Except.ok p.2 := by
  intro l
  induction l with
  | nil =>
    intro out h
    simp only [generateThemeLoop, Except.ok.injEq] at h
    subst h
    simp
  | cons hd rest ih =>
    intro out h
    obtain ⟨k, g⟩ := hd
    cases hb : getProp bucket k with
    | none =>
      simp only [generateThemeLoop, hb] at h
      cases h
    | some f =>
      simp only [generateThemeLoop, hb] at h
      cases hv : f vars with
      | error e => simp only [hv] at h; cases h
      | ok v =>
        simp only [hv] at h
        cases hrest : generateThemeLoop bucket vars rest with
        | error e => simp only [hrest] at h; cases h
        | ok out2 =>
          simp only [hrest, Except.ok.injEq] at h
          subst h
          obtain ⟨hkeys, hall⟩ := ih out2 hrest
          refine ⟨by simp [hkeys], ?_⟩
          intro p hp
          rcases List.mem_cons.mp hp with rfl | hp
          · exact ⟨f, hb, hv⟩
          · exact hall p hp

theorem foldl_preserves_getProp (f : ComponentThemeFunction) (K : CKey)
    (l : List (String × Option StyleFn)) :
    ∀ (comps : List (String × Bucket)) (k : String), k ∉ l.map Prod.fst →
    getProp (l.foldl (fun comps p =>
        setProp comps p.1
          (setProp ((getProp comps p.1).getD []) K (makeComponentTheme f p.1)))
      comps) k = getProp comps k := by
  induction l with
  | nil => intro comps k _; rfl
  | cons p rest ih =>
    intro comps k hk
    simp only [List.map_cons, List.mem_cons] at hk
    push_neg at hk
    rw [List.foldl_cons, ih _ _ hk.2,
      getProp_setProp_ne _ _ _ _ fun he => hk.1 he.symm]

theorem registerComponentTheme_stores_wrapper
    (r : Registry) (K : CKey) (f : ComponentThemeFunction) (tk : String)
    (sub : Option StyleFn)
    (hfn : f.isFunction = true)
    (hsub : getProp f.props tk = some sub)
    (hnd : (f.props.map Prod.fst).Nodup) :
    ∃ b : Bucket, getProp (registerComponentTheme r K f).components tk = some b ∧
      getProp b K = some (makeComponentTheme f tk) := by
  obtain ⟨l1, l2, hsplit, hl1⟩ := getProp_eq_some_split f.props tk sub hsub
  have hl2 : tk ∉ l2.map Prod.fst := by
    rw [hsplit] at hnd
    simp only [List.map_append, List.map_cons, List.nodup_append,
      List.nodup_cons] at hnd
    exact hnd.2.1.1
  simp only [registerComponentTheme, hfn, Bool.not_true, Bool.false_eq_true,
    if_false, hsplit, List.foldl_append, List.foldl_cons]
  rw [foldl_preserves_getProp f K l2 _ tk hl2, getProp_setProp_self]
  exact ⟨_, rfl, getProp_setProp_self _ _ _⟩

end Lemmas

/-- C1: with mutable `base` (color blue) registered as the default theme and
immutable `strict` (color red) registered, `generateTheme("strict",
{color:"green"})` resolves the variable `color` to `"red"`: the green
override is rejected against immutable `strict` in the first merge stage,
and the resulting variables are deep-merged into the mutable default
`base`. -/
theorem generateTheme_immutable_override_cascade :
    overrideThemeVariables scenarioState.registry "strict"
      (some [("color", JVal.vStr "green")]) = [("color", JVal.vStr "red")] ∧
    overrideThemeVariables scenarioState.registry "base"
      (some [("color", JVal.vStr "red")]) = [("color", JVal.vStr "red")] ∧
    mergeWithDefaultThemeVariables scenarioState.registry (some "strict")
      (some [("color", JVal.vStr "green")]) = [("color", JVal.vStr "red")] ∧
    generateTheme scenarioState.registry (some "strict")
      (some [("color", JVal.vStr "green")])
      = Except.ok [(⟨0⟩, [("color", JVal.vStr "red")])] :=
  ⟨rfl, rfl, rfl, rfl⟩

/-- C2: for a registered immutable theme and overrides with at least one key,
`overrideThemeVariables` returns the theme's variables exactly, with no key
changed, added or removed (the diagnostic branch of the source drops the
override attempt); the function only reads the registry, so the stored
variables are untouched. -/
theorem overrideThemeVariables_immutable_unchanged
    (r : Registry) (k : String) (T : Theme) (O : Obj)
    (hT : getProp r.themes k = some T) (himm : T.immutable = true) (hO : O ≠ []) :
    overrideThemeVariables r k (some O) = T.vars := by
  simp [overrideThemeVariables, getRegisteredTheme, hT, objNonEmpty, himm,
    List.length_pos.mpr hO]

/-- Witness for C2 at the immutable `strict` theme with a green override. -/
theorem overrideThemeVariables_immutable_unchanged_witness :
    overrideThemeVariables immCompRegistry "strict"
      (some [("color", JVal.vStr "green")]) = strictTheme.vars :=
  overrideThemeVariables_immutable_unchanged immCompRegistry "strict" strictTheme
    [("color", JVal.vStr "green")] rfl rfl (by simp)

/-- C5: `getDefaultThemeKey` prefers the explicit default key, then the first
registered key, then the reserved constant; in particular, immediately after
`clearRegistry()` it returns the reserved constant. -/
theorem getDefaultThemeKey_preference_order :
    (∀ (r : Registry) (k : String), r.defaultThemeKey = some k → k ≠ "" →
      getDefaultThemeKey r = k) ∧
    (∀ (r : Registry) (k : String) (rest : List String), r.defaultThemeKey = none →
      r.registered = k :: rest → k ≠ "" → getDefaultThemeKey r = k) ∧
    (∀ r : Registry, r.defaultThemeKey = none → r.registered = [] →
      getDefaultThemeKey r = DEFAULT_THEME_KEY) ∧
    ∀ r : Registry, getDefaultThemeKey (clearRegistry r) = DEFAULT_THEME_KEY := by
  refine ⟨?_, ?_, ?_, fun r => rfl⟩ <;> intros <;>
    simp_all [getDefaultThemeKey, jsOr]

/-- Witness for C5: all four preference cases at concrete registries. -/
theorem getDefaultThemeKey_preference_order_witness :
    getDefaultThemeKey { makeRegistry with defaultThemeKey := some "base" } = "base" ∧
    getDefaultThemeKey { makeRegistry with registered := ["a"] } = "a" ∧
    getDefaultThemeKey makeRegistry = DEFAULT_THEME_KEY ∧
    getDefaultThemeKey (clearRegistry makeRegistry) = DEFAULT_THEME_KEY :=
  ⟨getDefaultThemeKey_preference_order.1 _ "base" rfl (by decide),
   getDefaultThemeKey_preference_order.2.1 _ "a" [] rfl rfl (by decide),
   getDefaultThemeKey_preference_order.2.2.1 _ rfl rfl,
   getDefaultThemeKey_preference_order.2.2.2 _⟩

/-- C10: when no style function is registered for the component key in the
combined bucket and the effective theme is not immutable,
`generateComponentTheme` returns a shallow copy of the overrides (the empty
object when they are absent) rather than failing. -/
theorem generateComponentTheme_unregistered_component
    (r : Registry) (K : CKey) (tk : Option String) (ov : Option Obj)
    (hK : getProp (getRegisteredComponents r (some (jsOr tk (getDefaultThemeKey r)))) K = none)
    (himm : (getRegisteredTheme r (jsOr tk (getDefaultThemeKey r)) {}).immutable = false) :
    generateComponentTheme r K tk ov = ov.getD [] := by
  simp [generateComponentTheme, hK, himm, spreadProps_nil_left]

/-- Witness for C10 on a fresh registry with a nonsense component key. -/
theorem generateComponentTheme_unregistered_component_witness :
    generateComponentTheme makeRegistry ⟨3⟩ none (some [("a", JVal.vNat 1)])
      = [("a", JVal.vNat 1)] :=
  generateComponentTheme_unregistered_component makeRegistry ⟨3⟩ none
    (some [("a", JVal.vNat 1)]) rfl rfl

/-- C4: a style function that throws during `generateComponentTheme` is
caught — the embedding's return type is total, so nothing propagates to the
caller — and the component's style result is the empty object. -/
theorem generateComponentTheme_catches_styleFn_error
    (r : Registry) (K : CKey) (tk : Option String) (f : StyleFn)
    (hf : getProp (getRegisteredComponents r (some (jsOr tk (getDefaultThemeKey r)))) K = some f)
    (herr : f (mergeWithDefaultThemeVariables r tk none) = Except.error ()) :
    generateComponentTheme r K tk none = [] := by
  simp [generateComponentTheme, hf, herr, spreadProps_nil_left]

/-- Witness for C4 on a registry holding one throwing component. -/
theorem generateComponentTheme_catches_styleFn_error_witness :
    generateComponentTheme throwRegistry ⟨0⟩ none none = [] :=
  generateComponentTheme_catches_styleFn_error throwRegistry ⟨0⟩ none throwingFn rfl rfl

/-- C3: with overrides holding at least one key, `generateComponentTheme`
drops them entirely when the effective theme is immutable — the style
function's result is returned as is — and otherwise shallow-merges them over
the style function's result, the override values winning on every colliding
key. -/
theorem generateComponentTheme_overrides_respect_immutability
    (r : Registry) (K : CKey) (tk : Option String) (O : Obj) (st : Obj) (f : StyleFn)
    (hO : O ≠ [])
    (hf : getProp (getRegisteredComponents r (some (jsOr tk (getDefaultThemeKey r)))) K
        = some f)
    (hst : f (mergeWithDefaultThemeVariables r tk none) = Except.ok st) :
    ((getRegisteredTheme r (jsOr tk (getDefaultThemeKey r)) {}).immutable = true →
      generateComponentTheme r K tk (some O) = st) ∧
    ((getRegisteredTheme r (jsOr tk (getDefaultThemeKey r)) {}).immutable = false →
      generateComponentTheme r K tk (some O) = spreadProps st O ∧
      ∀ k : String, (getProp O k).isSome →
        getProp (generateComponentTheme r K tk (some O)) k = getProp O k) := by
  constructor
  · intro himm
    simp [generateComponentTheme, hf, hst, himm, objNonEmpty, List.length_pos.mpr hO]
  · intro himm
    have heq : generateComponentTheme r K tk (some O) = spreadProps st O := by
      simp [generateComponentTheme, hf, hst, himm]
    refine ⟨heq, ?_⟩
    intro k hk
    rw [heq, getProp_spreadProps]
    cases h : getProp O k with
    | none => rw [h] at hk; simp at hk
    | some v => simp

/-- Witness for C3: the immutable `strict` theme drops a `z` override, an
unknown (hence mutable) theme key merges it in. -/
theorem generateComponentTheme_overrides_respect_immutability_witness :
    generateComponentTheme immCompRegistry ⟨1⟩ (some "strict")
      (some [("z", JVal.vNat 9)]) = [("color", JVal.vStr "blue")] ∧
    generateComponentTheme immCompRegistry ⟨1⟩ (some "other")
      (some [("z", JVal.vNat 9)])
      = spreadProps [("color", JVal.vStr "blue")] [("z", JVal.vNat 9)] :=
  ⟨(generateComponentTheme_overrides_respect_immutability immCompRegistry ⟨1⟩
      (some "strict") [("z", JVal.vNat 9)] [("color", JVal.vStr "blue")] blueFn
      (by simp) rfl rfl).1 rfl,
   ((generateComponentTheme_overrides_respect_immutability immCompRegistry ⟨1⟩
      (some "other") [("z", JVal.vNat 9)] [("color", JVal.vStr "blue")] blueFn
      (by simp) rfl rfl).2 rfl).1⟩

/-- C6 counterexample: `registerTheme` never assigns `theme.key` — after
registering a keyless theme, the theme stored under the generated key still
has no key field (the claim says the fresh identifier is assigned to
`theme.key`). -/
theorem registerTheme_does_not_assign_theme_key :
    (getProp (registerTheme {} { vars := [("x", JVal.vNat 1)] }).registry.themes
        (uidString 0)).map Theme.key = some none ∧
    (registerTheme {} { vars := [("x", JVal.vNat 1)] }).registry.registered
      = [uidString 0] :=
  ⟨rfl, rfl⟩

/-- C6 (amended): for a theme without a truthy key field, `registerTheme`
generates a fresh identifier, stores the theme unchanged under it — the
theme's own key field stays absent — and appends the identifier to
`registered`; identifiers generated across any operation sequence are
pairwise distinct. -/
theorem registerTheme_fresh_key_storage :
    (∀ (s : GlobalState) (t : Theme), jsStr t.key = none →
      (registerTheme s t).registry.themes
          = setProp s.registry.themes (uidString s.uidCounter) t ∧
      (registerTheme s t).registry.registered
          = s.registry.registered ++ [uidString s.uidCounter] ∧
      getProp (registerTheme s t).registry.themes (uidString s.uidCounter) = some t) ∧
    ∀ ops : List Op, (genKeys {} ops).Nodup := by
  constructor
  · intro s t ht
    refine ⟨?_, ?_, ?_⟩ <;> simp [registerTheme, ht, getProp_setProp_self]
  · intro ops
    exact genKeys_nodup_from ops {}

/-- Witness for C6: a keyless registration lands under the first generated
key, and two keyless registrations generate distinct keys. -/
theorem registerTheme_fresh_key_storage_witness :
    jsStr (Theme.key { vars := [("x", JVal.vNat 1)] }) = none ∧
    (registerTheme {} { vars := [("x", JVal.vNat 1)] }).registry.registered
      = [uidString 0] ∧
    getProp (registerTheme {} { vars := [("x", JVal.vNat 1)] }).registry.themes
      (uidString 0) = some { vars := [("x", JVal.vNat 1)] } ∧
    (genKeys {} [Op.regTheme {}, Op.regTheme {}]).Nodup :=
  ⟨rfl,
   (registerTheme_fresh_key_storage.1 {} { vars := [("x", JVal.vNat 1)] } rfl).2.1,
   (registerTheme_fresh_key_storage.1 {} { vars := [("x", JVal.vNat 1)] } rfl).2.2,
   registerTheme_fresh_key_storage.2 _⟩

/-- C7 counterexample: registering the same explicit key twice pushes it onto
`registered` twice, so the sequence does contain duplicates. -/
theorem registered_duplicate_on_rereg :
    (applyOps {} [Op.regTheme { key := some "a" }, Op.regTheme { key := some "a" }]
      ).registry.registered = ["a", "a"] ∧
    ¬ ((applyOps {} [Op.regTheme { key := some "a" }, Op.regTheme { key := some "a" }]
      ).registry.registered).Nodup :=
  ⟨rfl, by decide⟩

/-- C7 (amended): each `registerTheme` appends its resolved key at the end of
`registered`; over any operation sequence from a fresh registry in which no
`registerTheme` call reuses a key already present in `registered`, the
sequence stays duplicate-free (re-registering a key appends a duplicate, as
the counterexample shows). -/
theorem registered_nodup_without_rereg :
    (∀ (s : GlobalState) (t : Theme),
      (registerTheme s t).registry.registered
        = s.registry.registered ++ [regKey s t]) ∧
    ∀ ops : List Op, noRereg {} ops = true →
      ((applyOps {} ops).registry.registered).Nodup := by
  refine ⟨registerTheme_registered, ?_⟩
  intro ops hg
  exact noRereg_nodup ops {} (by simp [makeRegistry]) hg

/-- Witness for C7: two distinct-key registrations satisfy the guard and
leave `registered` duplicate-free. -/
theorem registered_nodup_without_rereg_witness :
    noRereg {} [Op.regTheme { key := some "a" }, Op.regTheme { key := some "b" }]
      = true ∧
    ((applyOps {} [Op.regTheme { key := some "a" }, Op.regTheme { key := some "b" }]
      ).registry.registered).Nodup ∧
    (registerTheme {} { key := some "a" }).registry.registered = ["a"] :=
  ⟨rfl,
   registered_nodup_without_rereg.2 _ rfl,
   registered_nodup_without_rereg.1 {} { key := some "a" }⟩

/-- C8: whenever `generateTheme` returns a mapping, its keys are exactly the
keys of the combined components bucket, in order — no registered component
key is omitted — and every entry holds the result of invoking that
component's style function on the resolved variables. -/
theorem generateTheme_covers_all_components
    (r : Registry) (tk : Option String) (ov : Option Obj) (out : List (CKey × Obj))
    (h : generateTheme r tk ov = Except.ok out) :
    out.map Prod.fst = (getRegisteredComponents r tk).map Prod.fst ∧
    ∀ p ∈ out, ∃ f, getProp (getRegisteredComponents r tk) p.1 = some f ∧
      f (mergeWithDefaultThemeVariables r tk ov) = Except.ok p.2 :=
  generateThemeLoop_ok _ _ _ _ h

/-- Witness for C8 on a registry holding one constant component. -/
theorem generateTheme_covers_all_components_witness :
    [((⟨1⟩ : CKey), [("color", JVal.vStr "blue")])].map Prod.fst
      = (getRegisteredComponents blueRegistry none).map Prod.fst :=
  (generateTheme_covers_all_components blueRegistry none none
    [(⟨1⟩, [("color", JVal.vStr "blue")])] rfl).1

/-- C9: after registering a component theme function that carries a
sub-function under the property name `brand`, generating the component theme
for theme key `brand` with empty overrides yields the shallow merge of the
base function's result and the specialization's result, the specialization
winning on every collision. -/
theorem generateComponentTheme_theme_specialization_merge
    (r : Registry) (K : CKey) (f : ComponentThemeFunction) (sub : StyleFn) (a b : Obj)
    (hfn : f.isFunction = true)
    (hsub : getProp f.props "brand" = some (some sub))
    (hnd : (f.props.map Prod.fst).Nodup)
    (hrun : f.run (mergeWithDefaultThemeVariables (registerComponentTheme r K f)
        (some "brand") none) = Except.ok a)
    (hsubrun : sub (mergeWithDefaultThemeVariables (registerComponentTheme r K f)
        (some "brand") none) = Except.ok b) :
    generateComponentTheme (registerComponentTheme r K f) K (some "brand") (some [])
      = spreadProps a b := by
  obtain ⟨bk, hbk, hbkK⟩ := registerComponentTheme_stores_wrapper r K f "brand"
    (some sub) hfn hsub hnd
  have hif : (if ("brand" : String) = "" then
      getDefaultThemeKey (registerComponentTheme r K f) else "brand") = "brand" := rfl
  have hcomp : getProp (getRegisteredComponents (registerComponentTheme r K f)
      (some "brand")) K = some (makeComponentTheme f "brand") := by
    simp only [getRegisteredComponents, jsOr, hif, hbk, Option.getD_some,
      getProp_spreadProps, hbkK]
  have hwrap : makeComponentTheme f "brand"
      (mergeWithDefaultThemeVariables (registerComponentTheme r K f)
        (some "brand") none) = Except.ok (spreadProps a b) := by
    simp [makeComponentTheme, hfn, hrun, hsub, hsubrun]
  simp only [generateComponentTheme, jsOr, hif, hcomp, hwrap]
  simp [objNonEmpty, spreadProps_nil_right]

/-- Witness for C9: a base function `x:1, y:2` with a `brand` specialization
`y:9, z:3` generates `x:1, y:9, z:3`. -/
theorem generateComponentTheme_theme_specialization_merge_witness :
    generateComponentTheme (registerComponentTheme makeRegistry ⟨2⟩ brandFn) ⟨2⟩
      (some "brand") (some [])
      = spreadProps [("x", JVal.vNat 1), ("y", JVal.vNat 2)]
          [("y", JVal.vNat 9), ("z", JVal.vNat 3)] :=
  generateComponentTheme_theme_specialization_merge makeRegistry ⟨2⟩ brandFn brandSub
    [("x", JVal.vNat 1), ("y", JVal.vNat 2)] [("y", JVal.vNat 9), ("z", JVal.vNat 3)]
    rfl rfl (by simp [brandFn]) rfl rfl

end Themeable
